import Mathlib

/-!
# Verification of the frontend-sarathi order/notification core

A shallow embedding, in Lean 4, of the order-lifecycle and notification
subsystem of the `frontend-sarathi` dashboard, together with theorems
settling the specification's claims about it.

Embedding conventions:

* Machine time (`new Date()`, `Date.now()`) is an `Int` argument threaded
  into each operation; a JavaScript `Date` value that may be invalid is
  `Option Int`, with `none` standing for "Invalid Date".
* The `Math.random()`-based id generator of the notification store is
  modelled as generator state carried in the store (`nextId`), advanced on
  each draw; the generated id is the state value.
* JavaScript string truthiness (`!s`, `a || b`) is modelled explicitly:
  an optional string is falsy when it is `none` (undefined/null) or
  `some ""` (the empty string).
* `Math.max(0, n - 1)` on a non-negative counter is truncated `Nat`
  subtraction.
* Remote calls are inputs: a handler takes the remote outcome
  (`Except String Order`) as an argument, since the backend lives in a
  separate repository. Where a claim needs the remote's behaviour itself,
  a definition explicitly marked as modelled from the spec supplies it.
-/

/-! ## Notification store (`src/contexts/NotificationContext.tsx`) -/

/-- `NotificationType` from `NotificationContext.tsx:4`. -/
inductive NotificationType
  | order
  | product
  | staff
  | system
deriving DecidableEq, Repr

/-- The `Notification` interface (`NotificationContext.tsx:6-14`), with the
store-assigned `id` as the generator counter value and `timestamp` as an
integer clock reading. -/
structure Notification where
  id : Nat
  type : NotificationType
  title : String
  message : String
  timestamp : Int
  read : Bool
  actionUrl : Option String
deriving DecidableEq, Repr

/-- The argument type of `addNotification`:
`Omit<Notification, 'id' | 'timestamp' | 'read'>` — the caller cannot
supply an id, a timestamp, or a read flag. -/
structure NotificationPayload where
  type : NotificationType
  title : String
  message : String
  actionUrl : Option String
deriving DecidableEq, Repr

/-- The provider's state (`NotificationContext.tsx:40-41`): the
`notifications` list and the separately tracked `unreadCount` counter,
plus the id-generator state. -/
structure NotificationState where
  notifications : List Notification
  unreadCount : Nat
  nextId : Nat
deriving DecidableEq, Repr

/-- Initial provider state: `useState([])`, `useState(0)`. -/
def initialNotificationState : NotificationState :=
  { notifications := [], unreadCount := 0, nextId := 0 }

/-- The record built inside `addNotification` (`NotificationContext.tsx:69-74`):
the payload plus a generated id, the current time, and `read: false`. -/
def mkNotification (p : NotificationPayload) (i : Nat) (now : Int) : Notification :=
  { id := i, type := p.type, title := p.title, message := p.message,
    timestamp := now, read := false, actionUrl := p.actionUrl }

/-- `addNotification` (`NotificationContext.tsx:68-86`): build the record
with a generated id, the current time, `read: false`; prepend and keep only
the latest 50 (`[newNotification, ...prev].slice(0, 50)`); increment the
unread counter (`setUnreadCount(prev => prev + 1)`). -/
def addNotification (p : NotificationPayload) (now : Int) (s : NotificationState) :
    NotificationState :=
  { notifications := (mkNotification p s.nextId now :: s.notifications).take 50,
    unreadCount := s.unreadCount + 1,
    nextId := s.nextId + 1 }

/-- `markAsRead` (`NotificationContext.tsx:89-96`): map over the records
setting `read` on the matching id; decrement the counter with
`Math.max(0, prev - 1)` — truncated subtraction. -/
def markAsRead (i : Nat) (s : NotificationState) : NotificationState :=
  { s with
    notifications :=
      s.notifications.map fun n => if n.id = i then { n with read := true } else n,
    unreadCount := s.unreadCount - 1 }

/-- `markAllAsRead` (`NotificationContext.tsx:99-104`). -/
def markAllAsRead (s : NotificationState) : NotificationState :=
  { s with
    notifications := s.notifications.map fun n => { n with read := true },
    unreadCount := 0 }

/-- `clearNotifications` (`NotificationContext.tsx:107-111`). -/
def clearNotifications (s : NotificationState) : NotificationState :=
  { s with notifications := [], unreadCount := 0 }

/-- Count of unread records in a list — `filter(n => !n.read).length`. -/
def listUnreadCount (l : List Notification) : Nat :=
  (l.filter fun n => !n.read).length

/-- The number of currently stored records whose `read` flag is false —
what the spec says `unreadCount` should always equal. -/
def storedUnreadCount (s : NotificationState) : Nat :=
  listUnreadCount s.notifications

/-- One store operation, for reasoning about operation sequences. -/
inductive NotifOp
  | add (p : NotificationPayload) (now : Int)
  | markRead (i : Nat)
  | markAllRead
  | clear
deriving DecidableEq, Repr

/-- Apply one store operation. -/
def applyNotifOp (s : NotificationState) : NotifOp → NotificationState
  | NotifOp.add p now => addNotification p now s
  | NotifOp.markRead i => markAsRead i s
  | NotifOp.markAllRead => markAllAsRead s
  | NotifOp.clear => clearNotifications s

/-- Apply a sequence of store operations, left to right. -/
def applyNotifOps (s : NotificationState) (ops : List NotifOp) : NotificationState :=
  ops.foldl applyNotifOp s

/-- The ids of the stored records, in storage order. -/
def idsOf (l : List Notification) : List Nat := l.map (·.id)

/-- Structural invariant maintained by every operation: the store holds at
most 50 records and every stored id is below the generator counter. -/
def BasicNotifInv (s : NotificationState) : Prop :=
  s.notifications.length ≤ 50 ∧ ∀ n ∈ s.notifications, n.id < s.nextId

/-- The mapping step of `markAsRead` over a bare list. -/
def markMap (i : Nat) (l : List Notification) : List Notification :=
  l.map fun n => if n.id = i then { n with read := true } else n

/-- The full store invariant: the exposed counter agrees with the stored
unread count, stored ids are pairwise distinct, and all sit below the
generator counter. -/
def NotifInv (s : NotificationState) : Prop :=
  s.unreadCount = storedUnreadCount s
  ∧ (idsOf s.notifications).Nodup
  ∧ ∀ n ∈ s.notifications, n.id < s.nextId

/-- Operation sequences under which the spec expects the counter to stay in
sync: every append happens with fewer than 50 records stored (no eviction)
and every `markRead` targets an id that is currently stored and unread. -/
inductive SafeOps : NotificationState → List NotifOp → Prop
  | nil (s : NotificationState) : SafeOps s []
  | add (s : NotificationState) (p : NotificationPayload) (now : Int) (ops : List NotifOp)
      (hlen : s.notifications.length < 50)
      (h : SafeOps (addNotification p now s) ops) :
      SafeOps s (NotifOp.add p now :: ops)
  | markRead (s : NotificationState) (i : Nat) (ops : List NotifOp)
      (hmem : ∃ n ∈ s.notifications, n.id = i ∧ n.read = false)
      (h : SafeOps (markAsRead i s) ops) :
      SafeOps s (NotifOp.markRead i :: ops)
  | markAllRead (s : NotificationState) (ops : List NotifOp)
      (h : SafeOps (markAllAsRead s) ops) :
      SafeOps s (NotifOp.markAllRead :: ops)
  | clear (s : NotificationState) (ops : List NotifOp)
      (h : SafeOps (clearNotifications s) ops) :
      SafeOps s (NotifOp.clear :: ops)

/-- A concrete payload for concrete executions. -/
def samplePayload (t : String) : NotificationPayload :=
  { type := NotificationType.order, title := t, message := "m", actionUrl := none }

/-- Append two notifications, then call `markAsRead` twice on the first. -/
def desyncOps : List NotifOp :=
  [NotifOp.add (samplePayload "a") 0, NotifOp.add (samplePayload "b") 1,
   NotifOp.markRead 0, NotifOp.markRead 0]

/-- A concrete safe operation sequence: two appends and one `markRead` of a
stored unread id. -/
def safeWitnessOps : List NotifOp :=
  [NotifOp.add (samplePayload "a") 0, NotifOp.add (samplePayload "b") 1,
   NotifOp.markRead 0]

/-- Append 51 distinct notifications N1..N51 (titles "1".."51") in order. -/
def appendScenarioOps : List NotifOp :=
  (List.range 51).map fun k => NotifOp.add (samplePayload (toString (k + 1))) (k : Int)

/-! ## Orders, actors, and list visibility (`src/pages/Products.tsx`, `src/lib/types.ts`) -/

/-- `UserRole` from `lib/types.ts`. -/
inductive UserRole
  | admin
  | staff
  | executive
deriving DecidableEq, Repr

/-- The actor fields `loadOrders` consults: `_id` (Mongo id), `id`, `role`.
Both id fields are optional in the source (`id: string`, `_id?: string`,
either may be absent at runtime), and the code resolves them with
`user._id || user.id`. -/
structure User where
  _id : Option String
  id : Option String
  role : UserRole
deriving DecidableEq, Repr

/-- The `Order` fields the verified handlers touch (`lib/types.ts`):
`status` is kept as the raw string the code compares against tab names;
`createdBy` is the untyped creator field attached at order creation. -/
structure Order where
  _id : String
  orderNumber : String
  status : String
  assignedTo : Option String
  createdBy : Option String
  dispatchDate : Option Int
  isPaid : Bool
  paidAt : Option Int
deriving DecidableEq, Repr

/-- JavaScript falsiness of an optional string: undefined/null or `""`. -/
def strFalsy : Option String → Bool
  | none => true
  | some s => s == ""

/-- JavaScript `a || b` on optional strings. -/
def jsOrStr (a b : Option String) : Option String :=
  if strFalsy a then b else a

/-- `const userId = user._id || user.id` (`Products.tsx:1267` and elsewhere). -/
def resolvedId (u : User) : Option String := jsOrStr u._id u.id

/-- The remote responses a single `loadOrders` call can consume. The
backend is a separate repository, so each endpoint's response is an input:
`byDateRange` for `fetchOrdersByDateRange`, `byAssignedTo` for
`fetchOrdersByAssignedTo`, `byStatus` for `fetchOrders(status?)`, and
`all` for the server-side order collection that the creator query filters. -/
structure RemoteOrders where
  all : List Order
  byDateRange : List Order
  byAssignedTo : List Order
  byStatus : Option String → List Order

/-- Modelled from the spec: `fetchOrdersByCreator` is imported from
`lib/api` at `Products.tsx:1206` but its definition is absent from the
provided sources. Per the visibility policy, an order reaches an executive
only if `order.createdBy == actor.id`, and an order with no creator
recorded is visible to no executive (fail closed). -/
def fetchOrdersByCreator (userId : String) (serverOrders : List Order) : List Order :=
  serverOrders.filter fun o => o.createdBy == some userId

/-- The staff filter applied in the status-tab branch
(`Products.tsx:1291-1294`): `!order.assignedTo || order.assignedTo === userId`. -/
def staffOrderFilter (userId : Option String) (o : Order) : Bool :=
  strFalsy o.assignedTo || o.assignedTo == userId

/-- `loadOrders` of the Orders page (`Products.tsx:1254-1304`): date-range
loads bypass every client-side role filter; the `my-orders` tab fetches by
assignment server-side; executives fetch by creator (then filter by the
active status tab); everyone else fetches by status, with non-admin roles
filtered by the staff-assignment predicate. -/
def loadOrders (user : User) (activeTab : String) (hasDateRange : Bool)
    (r : RemoteOrders) : List Order :=
  if hasDateRange then
    r.byDateRange
  else if activeTab = "my-orders" then
    if strFalsy (resolvedId user) then r.byStatus none else r.byAssignedTo
  else if user.role = UserRole.executive then
    if strFalsy (resolvedId user) then []
    else
      let fetched := fetchOrdersByCreator ((resolvedId user).getD "") r.all
      if activeTab = "all" then fetched
      else fetched.filter fun o => o.status == activeTab
  else
    let fetched := r.byStatus (if activeTab = "all" then none else some activeTab)
    if user.role = UserRole.admin then fetched
    else fetched.filter (staffOrderFilter (resolvedId user))

/-- A staff actor with resolved id "A". -/
def staffUserA : User := { _id := some "A", id := some "A", role := UserRole.staff }

/-- An order assigned to a different staff member "B". -/
def orderAssignedB : Order :=
  { _id := "o1", orderNumber := "1001", status := "pending",
    assignedTo := some "B", createdBy := some "E1", dispatchDate := none,
    isPaid := false, paidAt := none }

/-- A remote whose date-range response contains the order assigned to "B". -/
def bypassRemote : RemoteOrders :=
  { all := [orderAssignedB], byDateRange := [orderAssignedB],
    byAssignedTo := [], byStatus := fun _ => [orderAssignedB] }

/-- An executive actor with resolved id "E1". -/
def execUserE1 : User := { _id := some "E1", id := some "E1", role := UserRole.executive }

/-- An order created by a different executive "E2". -/
def orderByE2 : Order :=
  { _id := "o2", orderNumber := "1002", status := "pending",
    assignedTo := none, createdBy := some "E2", dispatchDate := none,
    isPaid := false, paidAt := none }

/-- A remote whose date-range response contains the order created by "E2". -/
def execBypassRemote : RemoteOrders :=
  { all := [orderByE2], byDateRange := [orderByE2],
    byAssignedTo := [], byStatus := fun _ => [orderByE2] }

/-- The C6 scenario orders: creators "E1", "E2", and none. -/
def orderByE1 : Order :=
  { _id := "o3", orderNumber := "1003", status := "pending",
    assignedTo := none, createdBy := some "E1", dispatchDate := none,
    isPaid := false, paidAt := none }

/-- An order with no creator recorded. -/
def orderNoCreator : Order :=
  { _id := "o4", orderNumber := "1004", status := "pending",
    assignedTo := none, createdBy := none, dispatchDate := none,
    isPaid := false, paidAt := none }

/-- Remote for the C6 scenario: server collection with creators
"E1", "E2", undefined. -/
def scenarioRemote : RemoteOrders :=
  { all := [orderByE1, orderByE2, orderNoCreator], byDateRange := [],
    byAssignedTo := [], byStatus := fun _ => [] }

/-! ## Workflow orchestrator (`src/pages/Products.tsx`, `src/lib/api.ts`) -/

/-- The order patch objects the handlers build and send. -/
structure OrderUpdates where
  status : Option String
  dispatchDate : Option Int
  isPaid : Option Bool
  paidAt : Option Int
deriving DecidableEq, Repr

/-- The update object built by `handleStatusChange`
(`Products.tsx:1330-1334`): the requested status, plus — whenever the new
status is `dispatched`, with no check of the previous status — a fresh
`dispatchDate = new Date()`. -/
def mkStatusUpdates (status : String) (now : Int) : OrderUpdates :=
  { status := some status,
    dispatchDate := if status = "dispatched" then some now else none,
    isPaid := none, paidAt := none }

/-- The request body of `markOrderAsPaid` (`api.ts:319-339`):
`{ isPaid: true, paidAt: new Date() }` — a fresh `paidAt` on every call,
with no check whether the order is already paid. -/
def markPaidBody (now : Int) : OrderUpdates :=
  { status := none, dispatchDate := none, isPaid := some true, paidAt := some now }

/-- Modelled from the spec: the remote collaborator applies the requested
patch and returns "the full, authoritative post-update order record" (§6);
fields absent from the patch keep their stored values. The backend itself
is a separate repository (`backend-sarathi`), outside this one. -/
def applyOrderPatch (o : Order) (u : OrderUpdates) : Order :=
  { o with
    status := u.status.getD o.status,
    dispatchDate := match u.dispatchDate with
      | some d => some d
      | none => o.dispatchDate,
    isPaid := u.isPaid.getD o.isPaid,
    paidAt := match u.paidAt with
      | some t => some t
      | none => o.paidAt }

/-- One status-change round trip: the order record the orchestrator gets
back after `updateOrder(orderId, updates)` with the patch built by
`handleStatusChange`. -/
def remoteStatusChange (o : Order) (status : String) (now : Int) : Order :=
  applyOrderPatch o (mkStatusUpdates status now)

/-- One mark-paid round trip: the order record the orchestrator gets back
after `markOrderAsPaid(orderId)` at time `now`. -/
def remoteMarkPaid (o : Order) (now : Int) : Order :=
  applyOrderPatch o (markPaidBody now)

/-- The local state a handler touches: the in-memory order list and the
notification store. -/
structure OrchState where
  orders : List Order
  notifs : NotificationState
deriving Repr

/-- A handler's observable outcome: the new local state plus the toast
surfaced to the UI on failure. -/
structure OrchOutcome where
  orders : List Order
  notifs : NotificationState
  errorToast : Option String
deriving Repr

/-- `handleStatusChange` (`Products.tsx:1326-1348`): on remote success,
replace the matching order with the returned record (no notification is
emitted on this path); on remote failure, catch, toast, and leave all
local state untouched. The remote outcome is an input. -/
def handleStatusChange (st : OrchState) (orderId : String)
    (remote : Except String Order) : OrchOutcome :=
  match remote with
  | Except.ok updatedOrder =>
      { orders := st.orders.map fun o => if o._id = orderId then updatedOrder else o,
        notifs := st.notifs,
        errorToast := none }
  | Except.error _ =>
      { orders := st.orders, notifs := st.notifs,
        errorToast := some "Failed to update order status" }

/-- `handleMarkPaid` (`Products.tsx:1350-1374`): on remote success, replace
the matching order and append an order-marked-as-paid notification; on
remote failure, catch, toast, and leave all local state untouched. -/
def handleMarkPaid (st : OrchState) (orderId : String) (now : Int)
    (remote : Except String Order) : OrchOutcome :=
  match remote with
  | Except.ok updatedOrder =>
      { orders := st.orders.map fun o => if o._id = orderId then updatedOrder else o,
        notifs := addNotification
          { type := NotificationType.order,
            title := "Order Marked as Paid",
            message := "Order #"
              ++ (if updatedOrder.orderNumber = "" then orderId.take 8
                  else updatedOrder.orderNumber)
              ++ " has been marked as paid",
            actionUrl := some "/orders" } now st.notifs,
        errorToast := none }
  | Except.error _ =>
      { orders := st.orders, notifs := st.notifs,
        errorToast := some "Failed to mark order as paid" }

/-- An order already dispatched, with `dispatchDate` recorded at time 5. -/
def dispatchedOrder : Order :=
  { _id := "o5", orderNumber := "1005", status := "dispatched",
    assignedTo := none, createdBy := none, dispatchDate := some 5,
    isPaid := false, paidAt := none }

/-- An unpaid order. -/
def unpaidOrder : Order :=
  { _id := "o6", orderNumber := "1006", status := "pending",
    assignedTo := none, createdBy := none, dispatchDate := none,
    isPaid := false, paidAt := none }

/-! ## Stock decrement after order creation (`src/components/forms/OrderForm.tsx`) -/

/-- The item fields the stock pass uses (`lib/types.ts`). -/
structure OrderItem where
  productId : String
  quantity : Int
deriving DecidableEq, Repr

/-- The product fields the stock pass uses (`lib/types.ts`); both id fields
may be absent at runtime, as the lookup and key expressions assume. -/
structure Product where
  _id : Option String
  id : Option String
  stock : Int
deriving DecidableEq, Repr

/-- `products.find(p => (p._id === item.productId) || (p.id === item.productId))`
(`OrderForm.tsx:258`). -/
def findProduct (products : List Product) (pid : String) : Option Product :=
  products.find? fun p => p._id == some pid || p.id == some pid

/-- `product._id || product.id || ''` (`OrderForm.tsx:261`). -/
def productKey (p : Product) : String :=
  (jsOrStr p._id p.id).getD ""

/-- The stock-decrement pass after order creation
(`OrderForm.tsx:255-268` and `OrderForm.tsx:1061-1075`): for each ordered
item, look up the product, compute `Math.max(0, product.stock - item.quantity)`
and issue `updateProduct`; a throwing update is caught and the loop
continues with the next item. `updateFails` says which product updates
throw; the result lists the updates that were applied, as (key, new stock). -/
def stockPass (products : List Product) (updateFails : String → Bool) :
    List OrderItem → List (String × Int)
  | [] => []
  | item :: rest =>
    match findProduct products item.productId with
    | some p =>
        if updateFails (productKey p) then
          stockPass products updateFails rest
        else
          (productKey p, max 0 (p.stock - item.quantity))
            :: stockPass products updateFails rest
    | none => stockPass products updateFails rest

/-- Concrete stock-pass inputs: product "A" (stock 2) whose update throws,
product "B" (stock 10) whose update succeeds; item for "A" orders 5 (more
than its stock), item for "B" orders 3. -/
def productA : Product := { _id := some "A", id := none, stock := 2 }

/-- Product "B" of the witness run. -/
def productB : Product := { _id := some "B", id := none, stock := 10 }

/-- Witness item ordering 5 of product "A". -/
def itemA : OrderItem := { productId := "A", quantity := 5 }

/-- Witness item ordering 3 of product "B". -/
def itemB : OrderItem := { productId := "B", quantity := 3 }

/-- Witness product list. -/
def witnessProducts : List Product := [productA, productB]

/-- Witness item list. -/
def witnessItems : List OrderItem := [itemA, itemB]

/-- Witness failure pattern: updating product "A" throws. -/
def witnessFails (k : String) : Bool := k == "A"

/-! ## Loading the persisted log (`NotificationContext.tsx:43-60`) -/

/-- A persisted record as stored in the browser log: the timestamp is the
serialized string. -/
structure PersistedNotification where
  id : String
  type : NotificationType
  title : String
  message : String
  timestamp : String
  read : Bool
deriving DecidableEq, Repr

/-- A record as it sits in memory after load: `new Date(string)` yields a
time value or an Invalid Date, modelled as `Option Int` with `none` for
Invalid Date. -/
structure LoadedNotification where
  id : String
  type : NotificationType
  title : String
  message : String
  timestamp : Option Int
  read : Bool
deriving DecidableEq, Repr

/-- The per-record conversion of the load path
(`NotificationContext.tsx:50-53`): spread the record and replace its
timestamp string with `new Date(notification.timestamp)` — whatever that
yields, valid or not. -/
def loadRecord (parseDate : String → Option Int) (n : PersistedNotification) :
    LoadedNotification :=
  { id := n.id, type := n.type, title := n.title, message := n.message,
    timestamp := parseDate n.timestamp, read := n.read }

/-- The load path (`NotificationContext.tsx:44-60`): the whole blob is
`JSON.parse`d inside one try/catch — `none` models a throwing parse, after
which nothing is loaded — and on success every record is mapped through
`loadRecord`, with no per-record filtering. -/
def loadNotifications (parseDate : String → Option Int) :
    Option (List PersistedNotification) → List LoadedNotification
  | none => []
  | some parsed => parsed.map (loadRecord parseDate)

/-- A concrete stand-in for the external date parser in concrete runs:
accepts non-empty all-digit strings. (`new Date(string)` itself is a host
builtin; the load theorems quantify over the parser.) -/
def simpleDateParse (s : String) : Option Int :=
  if s.data ≠ [] ∧ s.data.all Char.isDigit then
    some (Int.ofNat (s.data.foldl (fun acc c => acc * 10 + (c.toNat - 48)) 0))
  else
    none

/-- A record whose timestamp parses. -/
def goodRecord : PersistedNotification :=
  { id := "g", type := NotificationType.order, title := "t", message := "m",
    timestamp := "100", read := false }

/-- A record whose timestamp cannot be parsed to a time value. -/
def badRecord : PersistedNotification :=
  { id := "b", type := NotificationType.order, title := "t", message := "m",
    timestamp := "not-a-date", read := false }

/-! ## The notification bell (`src/components/forms/OrderForm.tsx:1830-1853`) -/

/-- `filteredNotifications` (`OrderForm.tsx:1844-1848`): only order and
product notifications reach the bell. -/
def bellFiltered (notifications : List Notification) : List Notification :=
  notifications.filter fun n =>
    n.type == NotificationType.order || n.type == NotificationType.product

/-- The bell's own unread count (`OrderForm.tsx:1851-1853`): unread records
among the filtered subset only. -/
def bellUnreadCount (notifications : List Notification) : Nat :=
  listUnreadCount (bellFiltered notifications)

/-- An unread order notification shown at the bell. -/
def orderNotif : Notification :=
  { id := 0, type := NotificationType.order, title := "o", message := "m",
    timestamp := 0, read := false, actionUrl := none }

/-- An unread staff notification hidden from the bell. -/
def staffNotif : Notification :=
  { id := 1, type := NotificationType.staff, title := "s", message := "m",
    timestamp := 0, read := false, actionUrl := none }

/-- A store with one unread order and one unread staff notification. -/
def bellList : List Notification := [orderNotif, staffNotif]

/-! ## Lemmas and claim theorems -/

/-! ### Basic store invariants (hold for every operation sequence) -/

theorem basicNotifInv_apply (s : NotificationState) (op : NotifOp)
    (h : BasicNotifInv s) : BasicNotifInv (applyNotifOp s op) := by
  obtain ⟨hlen, hid⟩ := h
  cases op with
  | add p now =>
    refine ⟨?_, ?_⟩
    · simp only [applyNotifOp, addNotification, List.length_take]
      omega
    · intro n hn
      simp only [applyNotifOp, addNotification] at hn
      have hn' := List.mem_of_mem_take hn
      rcases List.mem_cons.mp hn' with h1 | h2
      · subst h1
        show (mkNotification p s.nextId now).id < s.nextId + 1
        simp [mkNotification]
      · show n.id < s.nextId + 1
        exact lt_trans (hid n h2) (Nat.lt_succ_self _)
  | markRead i =>
    refine ⟨?_, ?_⟩
    · simpa [applyNotifOp, markAsRead] using hlen
    · intro n hn
      simp only [applyNotifOp, markAsRead, List.mem_map] at hn
      obtain ⟨m, hm, rfl⟩ := hn
      show (if m.id = i then { m with read := true } else m).id < s.nextId
      by_cases hmi : m.id = i
      · simpa [hmi] using hid m hm
      · simpa [hmi] using hid m hm
  | markAllRead =>
    refine ⟨?_, ?_⟩
    · simpa [applyNotifOp, markAllAsRead] using hlen
    · intro n hn
      simp only [applyNotifOp, markAllAsRead, List.mem_map] at hn
      obtain ⟨m, hm, rfl⟩ := hn
      exact hid m hm
  | clear =>
    exact ⟨by simp [applyNotifOp, clearNotifications], by simp [applyNotifOp, clearNotifications]⟩

theorem basicNotifInv_applyOps (s : NotificationState) (ops : List NotifOp)
    (h : BasicNotifInv s) : BasicNotifInv (applyNotifOps s ops) := by
  induction ops generalizing s with
  | nil => simpa [applyNotifOps] using h
  | cons op ops ih =>
    have : applyNotifOps s (op :: ops) = applyNotifOps (applyNotifOp s op) ops := rfl
    rw [this]
    exact ih _ (basicNotifInv_apply s op h)

theorem basicNotifInv_initial : BasicNotifInv initialNotificationState := by
  constructor <;> simp [initialNotificationState]

/-! ### The full unread-count invariant and its preservation -/

/-- `markAsRead` does not change any stored id. -/
theorem idsOf_markMap (i : Nat) (l : List Notification) :
    idsOf (markMap i l) = idsOf l := by
  induction l with
  | nil => rfl
  | cons h t ih =>
    by_cases hmi : h.id = i <;> simp [markMap, idsOf, hmi] at ih ⊢ <;> exact ih

/-- Marking an id that occurs in none of the records leaves them unchanged. -/
theorem markMap_of_not_mem (i : Nat) (l : List Notification)
    (h : i ∉ idsOf l) : markMap i l = l := by
  induction l with
  | nil => rfl
  | cons hd t ih =>
    simp only [idsOf, List.map_cons, List.mem_cons] at h
    push_neg at h
    simp only [markMap, List.map_cons]
    rw [if_neg (fun he => h.1 he.symm)]
    have := ih (by simpa [idsOf] using h.2)
    simpa [markMap] using congrArg (hd :: ·) this

/-- Unread count of a cons cell. -/
theorem listUnreadCount_cons (n : Notification) (l : List Notification) :
    listUnreadCount (n :: l) = (if n.read then 0 else 1) + listUnreadCount l := by
  by_cases hr : n.read
  · simp [listUnreadCount, hr]
  · simp [listUnreadCount, hr]
    omega

/-- Marking a present, unread, uniquely-identified record decreases the
stored unread count by exactly one. -/
theorem listUnreadCount_markMap (i : Nat) (l : List Notification)
    (hnd : (idsOf l).Nodup) (n₀ : Notification) (hmem : n₀ ∈ l)
    (hid : n₀.id = i) (hread : n₀.read = false) :
    listUnreadCount (markMap i l) + 1 = listUnreadCount l := by
  induction l with
  | nil => cases hmem
  | cons hd t ih =>
    simp only [idsOf, List.map_cons, List.nodup_cons] at hnd
    by_cases hdi : hd.id = i
    · have hn0 : n₀ = hd := by
        rcases List.mem_cons.mp hmem with h1 | h2
        · exact h1
        · exfalso
          apply hnd.1
          rw [hdi, ← hid]
          exact List.mem_map.mpr ⟨n₀, h2, rfl⟩
      have hdread : hd.read = false := hn0 ▸ hread
      have ht : markMap i t = t := by
        apply markMap_of_not_mem
        rw [← hdi]
        exact hnd.1
      have hmm : markMap i (hd :: t) = { hd with read := true } :: t := by
        simp only [markMap, List.map_cons, if_pos hdi]
        exact congrArg _ ht
      have htrue : ({ hd with read := true } : Notification).read = true := rfl
      rw [hmm, listUnreadCount_cons, listUnreadCount_cons,
        if_pos htrue, if_neg (by simp [hdread])]
      omega
    · have hn0 : n₀ ∈ t := by
        rcases List.mem_cons.mp hmem with h1 | h2
        · exact absurd (h1 ▸ hid) hdi
        · exact h2
      have ih' := ih hnd.2 hn0
      have hmm : markMap i (hd :: t) = hd :: markMap i t := by
        simp only [markMap, List.map_cons, if_neg hdi]
      rw [hmm, listUnreadCount_cons, listUnreadCount_cons]
      omega

/-- Marking everything read empties the unread set. -/
theorem listUnreadCount_markAll (l : List Notification) :
    listUnreadCount (l.map fun n => { n with read := true }) = 0 := by
  induction l with
  | nil => rfl
  | cons hd t ih =>
    rw [List.map_cons, listUnreadCount_cons]
    simp only [ih]
    rfl

theorem notifInv_add (s : NotificationState) (p : NotificationPayload) (now : Int)
    (hlen : s.notifications.length < 50) (h : NotifInv s) :
    NotifInv (addNotification p now s) := by
  obtain ⟨hc, hnd, hlt⟩ := h
  have htake : (mkNotification p s.nextId now :: s.notifications).take 50
      = mkNotification p s.nextId now :: s.notifications := by
    apply List.take_of_length_le
    simp only [List.length_cons]
    omega
  refine ⟨?_, ?_, ?_⟩
  · show s.unreadCount + 1
        = listUnreadCount ((mkNotification p s.nextId now :: s.notifications).take 50)
    rw [htake, listUnreadCount_cons]
    have : (mkNotification p s.nextId now).read = false := rfl
    rw [this, hc]
    show listUnreadCount s.notifications + 1 = 1 + listUnreadCount s.notifications
    omega
  · show (idsOf ((mkNotification p s.nextId now :: s.notifications).take 50)).Nodup
    rw [htake]
    simp only [idsOf, List.map_cons, List.nodup_cons]
    refine ⟨fun hin => ?_, hnd⟩
    obtain ⟨m, hm, hmid⟩ := List.mem_map.mp hin
    have := hlt m hm
    simp only [mkNotification] at hmid
    omega
  · intro n hn
    simp only [addNotification, htake, List.mem_cons] at hn
    rcases hn with h1 | h2
    · subst h1
      show (mkNotification p s.nextId now).id < s.nextId + 1
      simp [mkNotification]
    · show n.id < s.nextId + 1
      exact lt_trans (hlt n h2) (Nat.lt_succ_self _)

theorem notifInv_markRead (s : NotificationState) (i : Nat)
    (hmem : ∃ n ∈ s.notifications, n.id = i ∧ n.read = false) (h : NotifInv s) :
    NotifInv (markAsRead i s) := by
  obtain ⟨hc, hnd, hlt⟩ := h
  obtain ⟨n₀, hn₀, hid, hread⟩ := hmem
  have hcount := listUnreadCount_markMap i s.notifications hnd n₀ hn₀ hid hread
  refine ⟨?_, ?_, ?_⟩
  · show s.unreadCount - 1 = listUnreadCount (markMap i s.notifications)
    rw [hc]
    show listUnreadCount s.notifications - 1 = _
    omega
  · show (idsOf (markMap i s.notifications)).Nodup
    rw [idsOf_markMap]
    exact hnd
  · intro n hn
    show n.id < s.nextId
    obtain ⟨m, hm, rfl⟩ := List.mem_map.mp hn
    by_cases hmi : m.id = i
    · simpa [hmi] using hlt m hm
    · simpa [hmi] using hlt m hm

theorem notifInv_markAllRead (s : NotificationState) (h : NotifInv s) :
    NotifInv (markAllAsRead s) := by
  obtain ⟨hc, hnd, hlt⟩ := h
  refine ⟨?_, ?_, ?_⟩
  · show (0 : Nat) = listUnreadCount (s.notifications.map fun n => { n with read := true })
    rw [listUnreadCount_markAll]
  · show (idsOf (s.notifications.map fun n => { n with read := true })).Nodup
    have : idsOf (s.notifications.map fun n => { n with read := true })
        = idsOf s.notifications := by
      simp [idsOf, List.map_map]
    rw [this]
    exact hnd
  · intro n hn
    obtain ⟨m, hm, rfl⟩ := List.mem_map.mp hn
    exact hlt m hm

theorem notifInv_clear (s : NotificationState) (_h : NotifInv s) :
    NotifInv (clearNotifications s) := by
  exact ⟨rfl, List.nodup_nil, by simp [clearNotifications]⟩

theorem notifInv_safeOps (s : NotificationState) (ops : List NotifOp)
    (hsafe : SafeOps s ops) (h : NotifInv s) : NotifInv (applyNotifOps s ops) := by
  induction hsafe with
  | nil s => simpa [applyNotifOps] using h
  | add s p now ops hlen _ ih => exact ih (notifInv_add s p now hlen h)
  | markRead s i ops hmem _ ih => exact ih (notifInv_markRead s i hmem h)
  | markAllRead s ops _ ih => exact ih (notifInv_markAllRead s h)
  | clear s ops _ ih => exact ih (notifInv_clear s h)

theorem notifInv_initial : NotifInv initialNotificationState :=
  ⟨rfl, List.nodup_nil, by simp [initialNotificationState]⟩

/-! ### Claims C1 and C3 -/

/-- Claim C1 fails on the code: `unreadCount` is a separately tracked
counter (incremented on append, decremented with `Math.max(0, n-1)` on
`markAsRead`), not derived from the records. After appending two
notifications and calling `markAsRead` twice on the same id, the exposed
counter is 0 while one stored record is still unread. -/
theorem unreadCount_desync_counterexample :
    (applyNotifOps initialNotificationState desyncOps).unreadCount = 0
    ∧ storedUnreadCount (applyNotifOps initialNotificationState desyncOps) = 1
    ∧ (applyNotifOps initialNotificationState desyncOps).unreadCount
        ≠ storedUnreadCount (applyNotifOps initialNotificationState desyncOps) := by
  refine ⟨rfl, rfl, ?_⟩
  decide

/-- Claim C1 (amended): the exposed unread count equals the number of
stored unread records after every operation sequence in which each append
happens with fewer than 50 records stored (no eviction) and each
`markRead` targets an id that is currently stored and unread; for
sequences with eviction, or with `markRead` on an already-read or
non-existent id, the counter can drift from the stored unread count. -/
theorem unreadCount_eq_storedUnread_of_safeOps (ops : List NotifOp)
    (h : SafeOps initialNotificationState ops) :
    (applyNotifOps initialNotificationState ops).unreadCount
      = storedUnreadCount (applyNotifOps initialNotificationState ops) :=
  (notifInv_safeOps initialNotificationState ops h notifInv_initial).1

theorem safeWitnessOps_safe : SafeOps initialNotificationState safeWitnessOps := by
  refine SafeOps.add _ _ _ _ (by decide) ?_
  refine SafeOps.add _ _ _ _ (by decide) ?_
  exact SafeOps.markRead _ _ _ (by decide) (SafeOps.nil _)

/-- Witness for the amended claim C1 at a concrete operation sequence. -/
theorem unreadCount_eq_storedUnread_witness :
    SafeOps initialNotificationState safeWitnessOps
    ∧ (applyNotifOps initialNotificationState safeWitnessOps).unreadCount
        = storedUnreadCount (applyNotifOps initialNotificationState safeWitnessOps) :=
  ⟨safeWitnessOps_safe,
   unreadCount_eq_storedUnread_of_safeOps safeWitnessOps safeWitnessOps_safe⟩

/-- Claim C3: the store never holds more than 50 records; an append builds
the stored record itself from a generated id and the append-time clock (the
payload type has no id or timestamp field, so the caller can supply
neither), prepends it, and truncates to the most recent 50; the assigned id
is fresh; appending 51 distinct notifications N1..N51 leaves exactly the 50
records N51..N2, most recent (N51) first. -/
theorem store_capacity_and_append_shape (ops : List NotifOp)
    (p : NotificationPayload) (now : Int) :
    (applyNotifOps initialNotificationState ops).notifications.length ≤ 50
    ∧ (addNotification p now (applyNotifOps initialNotificationState ops)).notifications
        = (mkNotification p (applyNotifOps initialNotificationState ops).nextId now
            :: (applyNotifOps initialNotificationState ops).notifications).take 50
    ∧ (applyNotifOps initialNotificationState ops).nextId
        ∉ idsOf (applyNotifOps initialNotificationState ops).notifications
    ∧ (applyNotifOps initialNotificationState appendScenarioOps).notifications.length = 50
    ∧ (applyNotifOps initialNotificationState appendScenarioOps).notifications.map
        (fun n => n.title)
        = (List.range 50).map (fun k => toString (51 - k)) := by
  obtain ⟨hlen, hid⟩ :=
    basicNotifInv_applyOps initialNotificationState ops basicNotifInv_initial
  refine ⟨hlen, rfl, ?_, ?_, ?_⟩
  · intro hin
    obtain ⟨m, hm, hmid⟩ := List.mem_map.mp hin
    have := hid m hm
    omega
  · decide
  · decide

/-! ## Orders, actors, and list visibility (`src/pages/Products.tsx`, `src/lib/types.ts`) -/

theorem strFalsy_iff (x : Option String) :
    strFalsy x = true ↔ x = none ∨ x = some "" := by
  cases x with
  | none => simp [strFalsy]
  | some s => simp [strFalsy]

theorem staffOrderFilter_iff (u : Option String) (o : Order) :
    staffOrderFilter u o = true
      ↔ o.assignedTo = none ∨ o.assignedTo = some "" ∨ o.assignedTo = u := by
  simp [staffOrderFilter, Bool.or_eq_true, strFalsy_iff, or_assoc]

/-! ### Claims C5 and C6 -/

/-- Claim C5 fails on the code: when a date range is selected, `loadOrders`
returns the date-range response without applying the staff-assignment
filter, so a staff actor "A" sees an order assigned to staff "B". -/
theorem staff_visibility_counterexample :
    orderAssignedB ∈ loadOrders staffUserA "all" true bypassRemote
    ∧ staffOrderFilter (resolvedId staffUserA) orderAssignedB = false
    ∧ orderAssignedB.assignedTo = some "B" := by
  refine ⟨?_, by decide, rfl⟩
  show orderAssignedB ∈ bypassRemote.byDateRange
  simp [bypassRemote]

/-- Claim C5 (amended): on the status-tab load path — no date range and a
tab other than `my-orders` — an order appears in a staff actor's loaded
list iff it is in the fetched response and its `assignedTo` is absent,
empty, or equal to the actor's resolved id; the date-range and `my-orders`
paths bypass this client-side filter. -/
theorem staff_visibility_status_path (user : User) (activeTab : String)
    (r : RemoteOrders) (o : Order)
    (hrole : user.role = UserRole.staff) (htab : activeTab ≠ "my-orders") :
    o ∈ loadOrders user activeTab false r
      ↔ o ∈ r.byStatus (if activeTab = "all" then none else some activeTab)
        ∧ (o.assignedTo = none ∨ o.assignedTo = some ""
            ∨ o.assignedTo = resolvedId user) := by
  have e1 : loadOrders user activeTab false r
      = (r.byStatus (if activeTab = "all" then none else some activeTab)).filter
          (staffOrderFilter (resolvedId user)) := by
    simp [loadOrders, htab, hrole]
  rw [e1, List.mem_filter, staffOrderFilter_iff]

/-- Witness for the amended claim C5 at a concrete staff actor, tab and
remote response. -/
theorem staff_visibility_status_path_witness :
    staffUserA.role = UserRole.staff ∧ ("all" : String) ≠ "my-orders"
    ∧ (orderAssignedB ∈ loadOrders staffUserA "all" false bypassRemote
        ↔ orderAssignedB ∈ bypassRemote.byStatus
              (if ("all" : String) = "all" then none else some "all")
          ∧ (orderAssignedB.assignedTo = none ∨ orderAssignedB.assignedTo = some ""
              ∨ orderAssignedB.assignedTo = resolvedId staffUserA)) :=
  ⟨rfl, by decide,
   staff_visibility_status_path staffUserA "all" bypassRemote orderAssignedB rfl
     (by decide)⟩

/-- Claim C6 fails on the code: when a date range is selected, `loadOrders`
returns the date-range response without any creator filter, so executive
"E1" sees an order created by "E2". -/
theorem executive_visibility_counterexample :
    orderByE2 ∈ loadOrders execUserE1 "all" true execBypassRemote
    ∧ orderByE2.createdBy ≠ some "E1" := by
  refine ⟨?_, by decide⟩
  show orderByE2 ∈ execBypassRemote.byDateRange
  simp [execBypassRemote]

/-- Claim C6 (amended): on the creator load path — no date range, the
`all` tab — an executive's loaded list is exactly the server collection
filtered to `createdBy == actor id`; every loaded order has that creator,
so an order with no creator recorded is loaded for no executive (fail
closed). Date-range and `my-orders` loads bypass the creator filter, and a
non-`all` status tab further restricts the creator-filtered list. -/
theorem executive_visibility_creator_path (user : User) (r : RemoteOrders)
    (uid : String) (hrole : user.role = UserRole.executive)
    (hid : resolvedId user = some uid) (hne : uid ≠ "") :
    loadOrders user "all" false r = r.all.filter (fun o => o.createdBy == some uid)
    ∧ ∀ o ∈ loadOrders user "all" false r, o.createdBy = some uid := by
  have e1 : loadOrders user "all" false r
      = r.all.filter (fun o => o.createdBy == some uid) := by
    simp [loadOrders, hrole, hid, strFalsy, hne, fetchOrdersByCreator]
  refine ⟨e1, ?_⟩
  intro o ho
  rw [e1, List.mem_filter] at ho
  exact eq_of_beq ho.2

/-- Witness for the amended claim C6: executive "E1" against the scenario
collection loads exactly the order created by "E1". -/
theorem executive_visibility_creator_path_witness :
    execUserE1.role = UserRole.executive
    ∧ resolvedId execUserE1 = some "E1" ∧ ("E1" : String) ≠ ""
    ∧ (loadOrders execUserE1 "all" false scenarioRemote
        = scenarioRemote.all.filter (fun o => o.createdBy == some "E1"))
    ∧ loadOrders execUserE1 "all" false scenarioRemote = [orderByE1] := by
  refine ⟨rfl, by decide, by decide, ?_, ?_⟩
  · exact (executive_visibility_creator_path execUserE1 scenarioRemote "E1" rfl
      (by decide) (by decide)).1
  · decide

/-! ### Claims C2, C4 and C8 -/

/-- Claim C2 fails on the code: `handleStatusChange` puts a fresh
`dispatchDate` in the patch whenever the new status is `dispatched`,
without checking the previous status, so re-dispatching an already
dispatched order (recorded at time 5) at time 9 overwrites the
`dispatchDate` to 9. -/
theorem dispatchDate_overwrite_counterexample :
    dispatchedOrder.status = "dispatched"
    ∧ dispatchedOrder.dispatchDate = some 5
    ∧ (remoteStatusChange dispatchedOrder "dispatched" 9).dispatchDate = some 9
    ∧ (remoteStatusChange dispatchedOrder "dispatched" 9).dispatchDate
        ≠ dispatchedOrder.dispatchDate := by
  refine ⟨rfl, rfl, rfl, by decide⟩

/-- Claim C2 (amended): every dispatched-status transition stamps the
transition time into `dispatchDate`, overwriting any previously recorded
value — the patch always carries `dispatchDate = now` when the status is
`dispatched`, so applying the transition twice yields the second call's
timestamp, not the first's. -/
theorem dispatchDate_always_overwritten (o : Order) (t₁ t₂ : Int) :
    (mkStatusUpdates "dispatched" t₁).dispatchDate = some t₁
    ∧ (remoteStatusChange o "dispatched" t₁).dispatchDate = some t₁
    ∧ (remoteStatusChange (remoteStatusChange o "dispatched" t₁)
        "dispatched" t₂).dispatchDate = some t₂ := by
  refine ⟨rfl, rfl, rfl⟩

/-- Claim C4: when the remote mutation fails, both handlers leave the
in-memory order list and the notification store exactly as they were and
only surface an error toast to the UI. -/
theorem remote_failure_is_atomic (st : OrchState) (orderId : String)
    (now : Int) (e : String) :
    (handleStatusChange st orderId (Except.error e)).orders = st.orders
    ∧ (handleStatusChange st orderId (Except.error e)).notifs = st.notifs
    ∧ (handleStatusChange st orderId (Except.error e)).errorToast
        = some "Failed to update order status"
    ∧ (handleMarkPaid st orderId now (Except.error e)).orders = st.orders
    ∧ (handleMarkPaid st orderId now (Except.error e)).notifs = st.notifs
    ∧ (handleMarkPaid st orderId now (Except.error e)).errorToast
        = some "Failed to mark order as paid" := by
  refine ⟨rfl, rfl, rfl, rfl, rfl, rfl⟩

/-- Claim C8 fails on the code: `markOrderAsPaid` sends
`{ isPaid: true, paidAt: new Date() }` on every call, so marking an
already-paid order overwrites `paidAt` with the second call's timestamp
(7), not the first's (3). -/
theorem paidAt_overwrite_counterexample :
    (remoteMarkPaid unpaidOrder 3).isPaid = true
    ∧ (remoteMarkPaid unpaidOrder 3).paidAt = some 3
    ∧ (remoteMarkPaid (remoteMarkPaid unpaidOrder 3) 7).isPaid = true
    ∧ (remoteMarkPaid (remoteMarkPaid unpaidOrder 3) 7).paidAt = some 7
    ∧ (remoteMarkPaid (remoteMarkPaid unpaidOrder 3) 7).paidAt
        ≠ (remoteMarkPaid unpaidOrder 3).paidAt := by
  refine ⟨rfl, rfl, rfl, rfl, by decide⟩

/-- Claim C8 (amended): every `markPaid` call sets `isPaid` and stamps a
fresh `paidAt` equal to that call's time — applying it twice yields
`isPaid == true` with `paidAt` equal to the second call's timestamp — and
each call is still reported to the caller as success (no error toast, and
the marked-as-paid notification is emitted). -/
theorem markPaid_stamps_fresh_paidAt (o : Order) (t₁ t₂ : Int)
    (st : OrchState) (orderId : String) :
    (remoteMarkPaid o t₁).isPaid = true
    ∧ (remoteMarkPaid o t₁).paidAt = some t₁
    ∧ (remoteMarkPaid (remoteMarkPaid o t₁) t₂).isPaid = true
    ∧ (remoteMarkPaid (remoteMarkPaid o t₁) t₂).paidAt = some t₂
    ∧ (handleMarkPaid st orderId t₂ (Except.ok (remoteMarkPaid o t₂))).errorToast
        = none := by
  refine ⟨rfl, rfl, rfl, rfl, rfl⟩

/-! ## Stock decrement after order creation (`src/components/forms/OrderForm.tsx`) -/

theorem stockPass_nonneg (products : List Product) (updateFails : String → Bool)
    (items : List OrderItem) :
    ∀ pr ∈ stockPass products updateFails items, 0 ≤ pr.2 := by
  induction items with
  | nil => intro pr h; cases h
  | cons item rest ih =>
    intro pr h
    cases hfd : findProduct products item.productId with
    | none =>
      simp only [stockPass, hfd] at h
      exact ih pr h
    | some p =>
      simp only [stockPass, hfd] at h
      by_cases hf : updateFails (productKey p) = true
      · rw [if_pos hf] at h
        exact ih pr h
      · rw [if_neg hf] at h
        rcases List.mem_cons.mp h with h1 | h2
        · subst h1
          exact le_max_left 0 _
        · exact ih pr h2

/-! ### Claim C9 -/

/-- Claim C9: every applied stock update writes
`max(0, stock - quantity)` — never negative, and zero whenever the
ordered quantity meets or exceeds the stock — and an item whose product
update does not throw is applied no matter which other items' updates
throw (one failure does not stop the pass). -/
theorem stockPass_clamps_and_continues (products : List Product)
    (updateFails : String → Bool) (items : List OrderItem)
    (item : OrderItem) (p : Product)
    (hmem : item ∈ items)
    (hfind : findProduct products item.productId = some p)
    (hok : updateFails (productKey p) = false) :
    (∀ pr ∈ stockPass products updateFails items, 0 ≤ pr.2)
    ∧ (productKey p, max 0 (p.stock - item.quantity))
        ∈ stockPass products updateFails items
    ∧ (p.stock ≤ item.quantity → max 0 (p.stock - item.quantity) = 0) := by
  refine ⟨stockPass_nonneg products updateFails items, ?_, ?_⟩
  · induction items with
    | nil => cases hmem
    | cons hd rest ih =>
      rcases List.mem_cons.mp hmem with h1 | h2
      · subst h1
        simp only [stockPass, hfind]
        rw [if_neg (by simp [hok])]
        exact List.mem_cons_self _ _
      · cases hfd : findProduct products hd.productId with
        | none =>
          simp only [stockPass, hfd]
          exact ih h2
        | some q =>
          simp only [stockPass, hfd]
          by_cases hf : updateFails (productKey q) = true
          · rw [if_pos hf]
            exact ih h2
          · rw [if_neg hf]
            exact List.mem_cons_of_mem _ (ih h2)
  · intro hle
    exact max_eq_left (by omega)

/-- Witness for claim C9: with the "A" update throwing, the "B" update is
still applied, clamped at `max 0 (10 - 3) = 7`. -/
theorem stockPass_clamps_and_continues_witness :
    itemB ∈ witnessItems
    ∧ findProduct witnessProducts itemB.productId = some productB
    ∧ witnessFails (productKey productB) = false
    ∧ (productKey productB, max 0 (productB.stock - itemB.quantity))
        ∈ stockPass witnessProducts witnessFails witnessItems := by
  refine ⟨by decide, by decide, by decide, ?_⟩
  exact (stockPass_clamps_and_continues witnessProducts witnessFails witnessItems
    itemB productB (by decide) (by decide) (by decide)).2.1

/-! ### Claim C7 -/

/-- Claim C7 fails on the code: the load path maps every record through
`new Date(timestamp)` and keeps it, so a record with an unparseable
timestamp is retained as an Invalid Date entry rather than dropped — the
loaded list still has both records. -/
theorem corrupt_timestamp_kept_counterexample :
    simpleDateParse badRecord.timestamp = none
    ∧ loadRecord simpleDateParse badRecord
        ∈ loadNotifications simpleDateParse (some [goodRecord, badRecord])
    ∧ (loadNotifications simpleDateParse (some [goodRecord, badRecord])).length = 2
    ∧ (loadRecord simpleDateParse badRecord).timestamp = none := by
  refine ⟨by decide, ?_, rfl, by decide⟩
  simp [loadNotifications]

/-- Claim C7 (amended): on load, every persisted record is kept — one with
an unparseable timestamp is loaded with an invalid (absent) time value,
not dropped — and the loaded list always has the same length as the
persisted one; only a parse failure of the whole blob makes the load come
back empty. -/
theorem load_keeps_every_record (parseDate : String → Option Int)
    (l : List PersistedNotification) (n : PersistedNotification) (h : n ∈ l) :
    loadRecord parseDate n ∈ loadNotifications parseDate (some l)
    ∧ (loadNotifications parseDate (some l)).length = l.length
    ∧ loadNotifications parseDate none = [] := by
  refine ⟨List.mem_map_of_mem _ h, by simp [loadNotifications], rfl⟩

/-- Witness for the amended claim C7: the bad record is in the persisted
list and comes back in the loaded list. -/
theorem load_keeps_every_record_witness :
    badRecord ∈ [goodRecord, badRecord]
    ∧ loadRecord simpleDateParse badRecord
        ∈ loadNotifications simpleDateParse (some [goodRecord, badRecord])
    ∧ (loadNotifications simpleDateParse (some [goodRecord, badRecord])).length
        = ([goodRecord, badRecord] : List PersistedNotification).length
    ∧ loadNotifications simpleDateParse none = [] := by
  refine ⟨by decide, ?_⟩
  exact load_keeps_every_record simpleDateParse [goodRecord, badRecord] badRecord
    (by decide)

/-! ## The notification bell (`src/components/forms/OrderForm.tsx:1830-1853`) -/

/-- Unread counts split along any Boolean predicate on records. -/
theorem listUnreadCount_filter_partition (p : Notification → Bool)
    (l : List Notification) :
    listUnreadCount (l.filter p) + listUnreadCount (l.filter fun n => !(p n))
      = listUnreadCount l := by
  induction l with
  | nil => rfl
  | cons hd t ih =>
    by_cases hp : p hd = true <;> by_cases hr : hd.read = true <;>
      simp only [List.filter_cons, hp, hr, if_pos, if_neg, Bool.not_true,
        Bool.not_false, listUnreadCount_cons, ite_true, ite_false,
        Bool.false_eq_true, Bool.true_eq_false] <;>
      omega

/-! ### Claim C10 -/

/-- Claim C10: the bell renders exactly the stored notifications of type
order or product, its badge count is the unread count over that filtered
subset only, and staff/system notifications never reach the bell — yet
their unread records still count toward the store-wide unread tally, as
the partition identity shows. -/
theorem bell_shows_and_counts_order_product (l : List Notification)
    (n : Notification) :
    (n ∈ bellFiltered l
      ↔ n ∈ l ∧ (n.type = NotificationType.order ∨ n.type = NotificationType.product))
    ∧ bellUnreadCount l
        + listUnreadCount (l.filter fun m =>
            !(m.type == NotificationType.order || m.type == NotificationType.product))
        = listUnreadCount l
    ∧ ((n.type = NotificationType.staff ∨ n.type = NotificationType.system)
        → n ∉ bellFiltered l) := by
  have hmem : n ∈ bellFiltered l
      ↔ n ∈ l ∧ (n.type = NotificationType.order ∨ n.type = NotificationType.product) := by
    simp [bellFiltered, List.mem_filter, Bool.or_eq_true, beq_iff_eq]
  refine ⟨hmem, listUnreadCount_filter_partition _ l, ?_⟩
  intro ht hin
  have h2 := (hmem.mp hin).2
  rcases ht with h | h <;> rcases h2 with h2 | h2 <;>
    rw [h] at h2 <;> exact absurd h2 (by decide)

/-- Witness for claim C10: with one unread order and one unread staff
notification stored, the bell badge shows 1, the store-wide unread tally
is 2, and the staff notification is not rendered at the bell. -/
theorem bell_shows_and_counts_witness :
    bellUnreadCount bellList = 1
    ∧ listUnreadCount bellList = 2
    ∧ staffNotif ∉ bellFiltered bellList := by
  refine ⟨by decide, by decide, ?_⟩
  exact (bell_shows_and_counts_order_product bellList staffNotif).2.2 (Or.inl rfl)
